import Mathlib

/-!
Shallow embedding of the `serde_arrow` repository's core buffer, builder and
deserializer routines, together with proofs about the properties stated in the
specification.  Rust machine integers are modelled as `Nat`/`Int`; fallible
Rust functions returning `Result` are modelled as `Except String`; a Rust
panic (out-of-bounds index, arithmetic overflow in a checked build) is
modelled as an `Except.error` whose message starts with `"panicked: "`, so
that every definition stays total and executable.
-/

namespace SerdeArrow

/-- String `s` contains `sub` as a (contiguous) substring. -/
def StrContains (s sub : String) : Prop :=
  sub.toList <:+: s.toList

instance (s sub : String) : Decidable (StrContains s sub) :=
  inferInstanceAs (Decidable (_ <:+: _))

/-- A string always contains any of its prefixes, in particular itself. -/
theorem strContains_append (sub t : String) : StrContains (sub ++ t) sub := by
  refine ⟨[], t.toList, ?_⟩
  simp [String.toList]

/-- Whether an `Except` computation succeeded. -/
def isOk {ε α : Type} : Except ε α → Bool
  | .ok _ => true
  | .error _ => false

theorem isOk_ok {ε α : Type} (a : α) : isOk (ε := ε) (.ok a) = true := rfl

theorem isOk_error {ε α : Type} (e : ε) : isOk (α := α) (.error e) = false := rfl

/-! ## `internal/arrow`: view-side bit buffers

`BitsWithOffset` is the borrowed validity bitmap of an array view: a byte
slice plus a bit offset (source: `internal/arrow/array_view.rs`, re-exported
from `internal/arrow/mod.rs`).  Bytes are modelled as `Nat` values `< 256`.
-/

structure BitsWithOffset where
  offset : Nat
  data : List Nat
deriving DecidableEq, Repr

/-- Modelled from the spec: `get_bit_buffer` (from `internal/utils/array_ext.rs`,
not part of the provided sources) reads bit `idx` of a validity bitmap, in the
LSB-first layout of §6 of the spec: bit `i` sits at `buffer[i/8] & (1 << (i%8))`.
An access past the end of the byte slice is an error. -/
def get_bit_buffer (data : List Nat) (offset idx : Nat) : Except String Bool :=
  match data.get? ((idx + offset) / 8) with
  | some byte => .ok (byte.testBit ((idx + offset) % 8))
  | none => .error "Out of bounds bit access"

/-- Source: `internal/deserialization/utils.rs`, `bitset_is_set`. -/
def bitset_is_set (set : BitsWithOffset) (idx : Nat) : Except String Bool :=
  get_bit_buffer set.data set.offset idx

/-- Modelled from the spec: `Offset::try_into_usize` (trait `Offset` lives in
`internal/utils`, not part of the provided sources) converts a signed offset
(`i32`/`i64`) to `usize`, failing on negative values. -/
def try_into_usize (o : Int) : Except String Nat :=
  if 0 ≤ o then .ok o.toNat else .error "Invalid offset: negative value"

/-! ## `internal/deserialization/utils.rs`: `ArrayBufferIterator` -/

/-- Source: `internal/deserialization/utils.rs`, `ArrayBufferIterator<'a, T>`,
with `T := Int` (the claims do not depend on the element type). -/
structure ArrayBufferIterator where
  buffer : List Int
  validity : Option BitsWithOffset
  nextIdx : Nat
deriving DecidableEq, Repr

namespace ArrayBufferIterator

/-- Source: `ArrayBufferIterator::new`. -/
def new (buffer : List Int) (validity : Option BitsWithOffset) : ArrayBufferIterator :=
  { buffer := buffer, validity := validity, nextIdx := 0 }

/-- Source: `ArrayBufferIterator::next`.  The guard is `self.next > self.buffer.len()`
(a strict comparison), after which the code indexes `self.buffer[self.next]`;
when `next == buffer.len()` and the validity bit is set (or there is no
validity), that index is out of bounds, which we model as a panic error.
Note that the `return Ok(None)` branch for a cleared validity bit does *not*
advance the cursor in the source. -/
def next (s : ArrayBufferIterator) : Except String (Option Int × ArrayBufferIterator) :=
  if s.nextIdx > s.buffer.length then
    .error "Exhausted deserializer"
  else do
    match s.validity with
    | some validity => do
        let b ← bitset_is_set validity s.nextIdx
        if !b then
          return (none, s)
        else
          match s.buffer.get? s.nextIdx with
          | some val => return (some val, { s with nextIdx := s.nextIdx + 1 })
          | none => .error "panicked: index out of bounds"
    | none =>
        match s.buffer.get? s.nextIdx with
        | some val => return (some val, { s with nextIdx := s.nextIdx + 1 })
        | none => .error "panicked: index out of bounds"

/-- Source: `ArrayBufferIterator::next_required`. -/
def next_required (s : ArrayBufferIterator) : Except String (Int × ArrayBufferIterator) := do
  match ← s.next with
  | (some v, s) => return (v, s)
  | (none, _) => .error "Exhausted deserializer"

/-- Source: `ArrayBufferIterator::peek_next`. -/
def peek_next (s : ArrayBufferIterator) : Except String Bool :=
  if s.nextIdx > s.buffer.length then
    .error "Exhausted deserializer"
  else
    match s.validity with
    | some validity => do
        let b ← bitset_is_set validity s.nextIdx
        if !b then return false else return true
    | none => .ok true

/-- Source: `ArrayBufferIterator::consume_next`. -/
def consume_next (s : ArrayBufferIterator) : ArrayBufferIterator :=
  { s with nextIdx := s.nextIdx + 1 }

end ArrayBufferIterator

/-! ## `internal/deserialization/utils.rs`: `check_supported_list_layout` -/

/-- The loop body of `check_supported_list_layout`: walks adjacent offset pairs
`(offsets[i], offsets[i+1])` for `i` in `0..offsets.len()-1`, translated as a
recursion over the list of offsets carrying the running index `i`; the `?`
operator of the source is translated as an explicit match on the
intermediate `Except` values. -/
def check_list_loop (validity : Option BitsWithOffset) :
    Nat → List Int → Except String Unit
  | _, [] => .ok ()
  | _, [_] => .ok ()
  | i, currOff :: nextOff :: rest =>
      match try_into_usize currOff with
      | .error e => .error e
      | .ok curr =>
        match try_into_usize nextOff with
        | .error e => .error e
        | .ok next =>
          if next < curr then
            .error "Unsupported: list offsets are assumed to be monotonically increasing"
          else
            match validity with
            | some validity =>
              match bitset_is_set validity i with
              | .error e => .error e
              | .ok b =>
                if !b && (next - curr != 0) then
                  .error "Unsupported: lists with data in null values are currently not supported in deserialization"
                else
                  check_list_loop (some validity) (i + 1) (nextOff :: rest)
            | none => check_list_loop none (i + 1) (nextOff :: rest)

/-- Source: `internal/deserialization/utils.rs`, `check_supported_list_layout`. -/
def check_supported_list_layout (validity : Option BitsWithOffset)
    (offsets : List Int) : Except String Unit :=
  if offsets.isEmpty then
    .error "Unsupported: list offsets must be non empty"
  else
    check_list_loop validity 0 offsets

/-- The validity bit of position `i`, in the LSB-first layout of the spec
(§6, "Validity: LSB-first within each byte"). -/
def bitAt (v : BitsWithOffset) (i : Nat) : Bool :=
  (v.data.getD ((i + v.offset) / 8) 0).testBit ((i + v.offset) % 8)

/-- When bit `i` is inside the bitmap, `bitset_is_set` succeeds and agrees with
the LSB-first layout predicate `bitAt`. -/
theorem bitset_is_set_eq_bitAt (v : BitsWithOffset) (i : Nat)
    (h : i + v.offset < 8 * v.data.length) :
    bitset_is_set v i = .ok (bitAt v i) := by
  have hidx : (i + v.offset) / 8 < v.data.length := by
    rw [Nat.div_lt_iff_lt_mul (by norm_num)]
    omega
  rw [bitset_is_set, get_bit_buffer, bitAt, List.get?_eq_get hidx,
    List.getD_eq_get v.data 0 hidx]

/-- The condition of the claim, per position `j`: the adjacent offsets are
non-decreasing and a cleared validity bit forces an empty segment. -/
def PairOk (validity : Option BitsWithOffset) (offsets : List Int) (j : Nat) : Prop :=
  offsets.getD j 0 ≤ offsets.getD (j + 1) 0 ∧
    ∀ v, validity = some v → bitAt v j = false →
      offsets.getD (j + 1) 0 = offsets.getD j 0

/-- Auxiliary re-indexing step: a bounded quantifier over `n + 1` positions
splits into position `0` and the shifted positions. -/
theorem forall_lt_succ_split (P : Nat → Prop) (n : Nat) :
    (∀ j, j + 1 < n + 2 → P j) ↔ P 0 ∧ ∀ j, j + 1 < n + 1 → P (j + 1) := by
  constructor
  · intro h
    exact ⟨h 0 (by omega), fun j hj => h (j + 1) (by omega)⟩
  · rintro ⟨h0, h⟩ j hj
    match j with
    | 0 => exact h0
    | j + 1 => exact h j (by omega)

/-- Characterization of the loop of `check_supported_list_layout`: provided
every offset is non-negative and the validity bitmap covers the inspected
bits, the loop succeeds iff every adjacent pair from index `i` on satisfies
the claim's condition. -/
theorem check_list_loop_ok_iff (validity : Option BitsWithOffset) (l : List Int)
    (i : Nat)
    (hnn : ∀ o ∈ l, 0 ≤ o)
    (hcov : ∀ v, validity = some v →
      v.offset + (i + (l.length - 1)) ≤ 8 * v.data.length) :
    isOk (check_list_loop validity i l) = true ↔
      ∀ j, j + 1 < l.length →
        (l.getD j 0 ≤ l.getD (j + 1) 0 ∧
         ∀ v, validity = some v → bitAt v (i + j) = false →
           l.getD (j + 1) 0 = l.getD j 0) := by
  induction l generalizing i with
  | nil => simp [check_list_loop, isOk]
  | cons a tail ih =>
    match tail with
    | [] => simp [check_list_loop, isOk]
    | b :: rest =>
      have ha : 0 ≤ a := hnn a (by simp)
      have hb : 0 ≤ b := hnn b (by simp)
      simp only [check_list_loop, try_into_usize, ha, hb, if_true]
      by_cases hlt : b.toNat < a.toNat
      · rw [if_pos hlt]
        simp only [isOk_error, Bool.false_eq_true, false_iff]
        intro h
        have h0 := (h 0 (by simp)).1
        simp only [List.getD_cons_zero, List.getD_cons_succ] at h0
        omega
      · rw [if_neg hlt]
        have hab : a ≤ b := by omega
        -- the quantified right-hand side splits into position 0 and the rest
        have hsplit := forall_lt_succ_split
          (fun j => (a :: b :: rest).getD j 0 ≤ (a :: b :: rest).getD (j + 1) 0 ∧
            ∀ v, validity = some v → bitAt v (i + j) = false →
              (a :: b :: rest).getD (j + 1) 0 = (a :: b :: rest).getD j 0)
          rest.length
        have hshift : (∀ j, j + 1 < rest.length + 1 →
            ((a :: b :: rest).getD (j + 1) 0 ≤ (a :: b :: rest).getD (j + 1 + 1) 0 ∧
             ∀ v, validity = some v → bitAt v (i + (j + 1)) = false →
               (a :: b :: rest).getD (j + 1 + 1) 0 = (a :: b :: rest).getD (j + 1) 0)) ↔
            (∀ j, j + 1 < (b :: rest).length →
             ((b :: rest).getD j 0 ≤ (b :: rest).getD (j + 1) 0 ∧
              ∀ v, validity = some v → bitAt v ((i + 1) + j) = false →
                (b :: rest).getD (j + 1) 0 = (b :: rest).getD j 0)) := by
          apply forall_congr'
          intro j
          have harith : i + (j + 1) = (i + 1) + j := by omega
          simp [List.getD_cons_succ, harith]
        match validity with
        | none =>
          dsimp only
          rw [ih (i + 1) (fun o ho => hnn o (by simp at ho ⊢; tauto))
            (fun v hv => by cases hv)]
          simp only [List.length_cons] at hsplit ⊢
          rw [show rest.length + 1 + 1 = rest.length + 2 from rfl] at hsplit
          rw [hsplit, hshift]
          simp [List.getD_cons_zero, List.getD_cons_succ, hab]
        | some v =>
          have hbit : i + v.offset < 8 * v.data.length := by
            have := hcov v rfl
            simp only [List.length_cons] at this
            omega
          dsimp only
          simp only [bitset_is_set_eq_bitAt v i hbit]
          have hcov' : ∀ w, (some v : Option BitsWithOffset) = some w →
              w.offset + ((i + 1) + ((b :: rest).length - 1)) ≤ 8 * w.data.length := by
            intro w hw
            cases hw
            have := hcov v rfl
            simp only [List.length_cons] at this ⊢
            omega
          by_cases hflag : (!bitAt v i && (b.toNat - a.toNat != 0)) = true
          · rw [if_pos hflag]
            simp only [isOk_error, Bool.false_eq_true, false_iff]
            intro h
            have h0 := (h 0 (by simp)).2 v rfl
            simp only [Nat.add_zero, List.getD_cons_zero, List.getD_cons_succ] at h0
            simp only [Bool.and_eq_true, Bool.not_eq_true', bne_iff_ne, ne_eq] at hflag
            have hba := h0 hflag.1
            omega
          · rw [if_neg hflag]
            rw [ih (i + 1) (fun o ho => hnn o (by simp at ho ⊢; tauto)) hcov']
            simp only [List.length_cons] at hsplit ⊢
            rw [show rest.length + 1 + 1 = rest.length + 2 from rfl] at hsplit
            rw [hsplit, hshift]
            simp only [Bool.and_eq_true, Bool.not_eq_true', bne_iff_ne, ne_eq,
              not_and, Decidable.not_not] at hflag
            constructor
            · intro hx
              refine ⟨⟨by simpa using hab, ?_⟩, hx⟩
              intro w hw hw0
              cases hw
              simp only [Nat.add_zero] at hw0
              have hd := hflag hw0
              simp only [List.getD_cons_zero, List.getD_cons_succ]
              omega
            · rintro ⟨_, hx⟩
              exact hx

/-- `check_supported_list_layout` in terms of the claim's conditions (offsets
restricted to non-negative values). -/
theorem check_supported_list_layout_ok_iff
    (validity : Option BitsWithOffset) (offsets : List Int)
    (hnn : ∀ o ∈ offsets, 0 ≤ o)
    (hcov : ∀ v, validity = some v →
      v.offset + (offsets.length - 1) ≤ 8 * v.data.length) :
    isOk (check_supported_list_layout validity offsets) = true ↔
      (offsets ≠ [] ∧ ∀ j, j + 1 < offsets.length →
        (offsets.getD j 0 ≤ offsets.getD (j + 1) 0 ∧
         ∀ v, validity = some v → bitAt v j = false →
           offsets.getD (j + 1) 0 = offsets.getD j 0)) := by
  rw [check_supported_list_layout]
  match offsets with
  | [] => simp [isOk]
  | a :: tl =>
    rw [if_neg (by simp)]
    have h := check_list_loop_ok_iff validity (a :: tl) 0 hnn
      (fun v hv => by simpa using hcov v hv)
    simp only [Nat.zero_add] at h
    rw [h]
    simp

/-- C1 (amended): for every offsets slice whose entries are non-negative and
optional validity bitmap covering at least `offsets.len() - 1` bits,
`check_supported_list_layout` returns `Ok` if and only if the offsets are
non-empty, adjacent pairs are non-decreasing, and every position with a
cleared validity bit has an empty segment; in particular the input with
`validity = 0b101` and `offsets = [0, 5, 10, 15]` is rejected with an error
containing "data in null values".  (The non-negativity restriction is forced
by the `try_into_usize` conversion in the source, see the counterexample.) -/
theorem check_supported_list_layout_spec
    (validity : Option BitsWithOffset) (offsets : List Int)
    (hnn : ∀ o ∈ offsets, 0 ≤ o)
    (hcov : ∀ v, validity = some v →
      v.offset + (offsets.length - 1) ≤ 8 * v.data.length) :
    (isOk (check_supported_list_layout validity offsets) = true ↔
      (offsets ≠ [] ∧ ∀ j, j + 1 < offsets.length → PairOk validity offsets j))
    ∧ check_supported_list_layout (some ⟨0, [5]⟩) [0, 5, 10, 15] =
        .error "Unsupported: lists with data in null values are currently not supported in deserialization"
    ∧ StrContains
        "Unsupported: lists with data in null values are currently not supported in deserialization"
        "data in null values" := by
  refine ⟨?_, rfl, by decide⟩
  simp only [PairOk]
  exact check_supported_list_layout_ok_iff validity offsets hnn hcov

/-- Witness for C1: the theorem applied to the concrete bad-layout input
`validity = 0b101`, `offsets = [0, 5, 10, 15]`. -/
theorem check_supported_list_layout_spec_witness :
    (isOk (check_supported_list_layout (some ⟨0, [5]⟩) [0, 5, 10, 15]) = true ↔
      (([0, 5, 10, 15] : List Int) ≠ [] ∧ ∀ j, j + 1 < ([0, 5, 10, 15] : List Int).length →
        PairOk (some ⟨0, [5]⟩) [0, 5, 10, 15] j))
    ∧ check_supported_list_layout (some ⟨0, [5]⟩) [0, 5, 10, 15] =
        .error "Unsupported: lists with data in null values are currently not supported in deserialization"
    ∧ StrContains
        "Unsupported: lists with data in null values are currently not supported in deserialization"
        "data in null values" :=
  check_supported_list_layout_spec (some ⟨0, [5]⟩) [0, 5, 10, 15]
    (by decide) (by intro v hv; cases hv; decide)

/-- Counterexample for C1 as stated: with `offsets = [-1, 0]` (no validity)
all conditions of the claim hold (non-empty, adjacent pair non-decreasing,
no validity bitmap), yet the function returns an error, because
`try_into_usize` rejects the negative offset. -/
theorem check_supported_list_layout_negative_offset_cex :
    isOk (check_supported_list_layout none [-1, 0]) = false
    ∧ ([-1, 0] : List Int) ≠ []
    ∧ ∀ j, j + 1 < ([-1, 0] : List Int).length → PairOk none [-1, 0] j := by
  refine ⟨rfl, by decide, ?_⟩
  intro j hj
  simp only [List.length_cons, List.length_nil] at hj
  have hj0 : j = 0 := by omega
  subst hj0
  exact ⟨by decide, fun v hv => by cases hv⟩

/-- C2 (code bug): on a state whose validity bit at the cursor is 0, `next`
returns `Ok(None)` but does *not* advance the cursor: the resulting state
still has `nextIdx = 0`.  The spec ("still advancing the cursor") requires
the cursor to move to 1. -/
theorem arrayBufferIterator_next_null_does_not_advance :
    ArrayBufferIterator.next ⟨[7], some ⟨0, [0]⟩, 0⟩ =
      .ok (none, ⟨[7], some ⟨0, [0]⟩, 0⟩) := rfl

/-- C3 (code bug): on a fully consumed iterator (here an empty values buffer,
no validity, cursor 0 = length), the guard `next > buffer.len()` does not
fire, so `next` reaches the unguarded index `buffer[next]` (modelled as a
panic) instead of returning the "Exhausted deserializer" error, `peek_next`
answers `Ok(true)`, and `next_required` propagates the panic. -/
theorem arrayBufferIterator_exhausted_panics :
    ArrayBufferIterator.next ⟨[], none, 0⟩ = .error "panicked: index out of bounds"
    ∧ ArrayBufferIterator.peek_next ⟨[], none, 0⟩ = .ok true
    ∧ ArrayBufferIterator.next_required ⟨[], none, 0⟩ =
        .error "panicked: index out of bounds" :=
  ⟨rfl, rfl, rfl⟩

/-! ## `internal/serialization/utils.rs`: `MutableBitBuffer`

The builder-side validity bitmap.  `len` and `capacity` are counted in bits,
`buffer` holds bytes. -/

structure MutableBitBuffer where
  buffer : List Nat
  len : Nat
  capacity : Nat
deriving DecidableEq, Repr

namespace MutableBitBuffer

/-- `Default` derive of the source: all fields zero / empty. -/
def default : MutableBitBuffer := ⟨[], 0, 0⟩

/-- The inner `for _ in 0..k { self.buffer.push(0); self.capacity += 8; }` of
`MutableBitBuffer::push` (the source runs it with `k = 64`). -/
def pushZeroBytes : MutableBitBuffer → Nat → MutableBitBuffer
  | b, 0 => b
  | b, k + 1 => pushZeroBytes { b with buffer := b.buffer ++ [0], capacity := b.capacity + 8 } k

theorem pushZeroBytes_capacity (b : MutableBitBuffer) (k : Nat) :
    (pushZeroBytes b k).capacity = b.capacity + 8 * k := by
  induction k generalizing b with
  | zero => simp [pushZeroBytes]
  | succ k ih =>
    rw [pushZeroBytes, ih]
    simp
    omega

theorem pushZeroBytes_len (b : MutableBitBuffer) (k : Nat) :
    (pushZeroBytes b k).len = b.len := by
  induction k generalizing b with
  | zero => simp [pushZeroBytes]
  | succ k ih => rw [pushZeroBytes, ih]

/-- The `while self.len >= self.capacity` loop of `MutableBitBuffer::push`,
written with an explicit fuel so that it stays structurally recursive (and
hence computable by the kernel).  Each loop iteration raises `capacity` by
512 bits, so `b.len + 2` iterations always suffice; `reserveFuel_post` below
shows the fuelled loop indeed reaches the loop's exit condition. -/
def reserveFuel : Nat → MutableBitBuffer → MutableBitBuffer
  | 0, b => b
  | fuel + 1, b =>
    if b.len ≥ b.capacity then reserveFuel fuel (pushZeroBytes b 64) else b

/-- The while loop of `MutableBitBuffer::push`, with always-sufficient fuel. -/
def reserve (b : MutableBitBuffer) : MutableBitBuffer :=
  reserveFuel (b.len + 2) b

/-- With enough fuel, the loop establishes `len < capacity`, i.e. the fuelled
translation agrees with the `while` loop of the source. -/
theorem reserveFuel_post (fuel : Nat) (b : MutableBitBuffer)
    (hfuel : b.len + 1 ≤ b.capacity + 512 * fuel) :
    (reserveFuel fuel b).len < (reserveFuel fuel b).capacity := by
  induction fuel generalizing b with
  | zero =>
    rw [reserveFuel]
    omega
  | succ fuel ih =>
    rw [reserveFuel]
    by_cases h : b.len ≥ b.capacity
    · rw [if_pos h]
      exact ih _ (by simp [pushZeroBytes_len, pushZeroBytes_capacity]; omega)
    · rw [if_neg h]
      omega

theorem reserve_post (b : MutableBitBuffer) :
    (reserve b).len < (reserve b).capacity :=
  reserveFuel_post _ b (by omega)

/-- Source: `MutableBitBuffer::push`.  After the reservation loop the bit is
stored LSB-first: `self.buffer[self.len / 8] |= 1 << (self.len % 8)`
(in bounds after `reserve` for every state reachable from `default`). -/
def push (b0 : MutableBitBuffer) (value : Bool) : MutableBitBuffer :=
  let b := b0.reserve
  let b := if value then
      let byte := (b.buffer.getD (b.len / 8) 0) ||| (1 <<< (b.len % 8))
      { b with buffer := b.buffer.set (b.len / 8) byte }
    else b
  { b with len := b.len + 1 }

/-- Source: `MutableBitBuffer::len`. -/
def length (b : MutableBitBuffer) : Nat := b.len

/-- Source: `MutableBitBuffer::as_bool`.  The flag is computed as
`1 << i` on a `u8` (not `1 << (i % 8)` as the spec's layout formula says),
which for `i ≥ 8` is an overflowing shift: a panic in a build with overflow
checks (the default for `cargo test`), modelled as an error. -/
def as_bool (b : MutableBitBuffer) : Except String (List Bool) :=
  (List.range b.len).mapM fun i =>
    if i < 8 then
      match b.buffer.get? (i / 8) with
      | some byte => .ok ((byte &&& (1 <<< i)) == (1 <<< i))
      | none => .error "panicked: index out of bounds"
    else .error "panicked: attempt to shift left with overflow"

/-- Source: `MutableBitBuffer::clear`. -/
def clear (_ : MutableBitBuffer) : MutableBitBuffer := default

theorem push_capacity (b : MutableBitBuffer) (v : Bool) :
    (b.push v).capacity = b.reserve.capacity := by
  by_cases hv : v = true <;> simp [push, hv]

theorem push_len (b : MutableBitBuffer) (v : Bool) :
    (b.push v).len = b.reserve.len + 1 := by
  by_cases hv : v = true <;> simp [push, hv]

end MutableBitBuffer

/-- C4 (code bug): pushing nine bits into a fresh `MutableBitBuffer` stores
them in the LSB-first layout (second conjunct, per the spec formula
`buffer[i/8] & (1 << (i%8))`), but `as_bool` then panics with a shift
overflow when it reaches bit index 8, because it computes the flag as
`1 << i` on a `u8` instead of `1 << (i % 8)`; the claimed round-trip fails
for every length greater than 8. -/
theorem mutableBitBuffer_as_bool_shift_overflow :
    ((List.replicate 9 true).foldl MutableBitBuffer.push MutableBitBuffer.default).as_bool
      = .error "panicked: attempt to shift left with overflow"
    ∧ (∀ i, i < 9 →
        (((List.replicate 9 true).foldl MutableBitBuffer.push
          MutableBitBuffer.default).buffer.getD (i / 8) 0).testBit (i % 8) = true)
    ∧ ((List.replicate 9 true).foldl MutableBitBuffer.push MutableBitBuffer.default).len = 9 := by
  refine ⟨rfl, by decide, by decide⟩

/-- C9 (amended): whenever `MutableBitBuffer::push` is called with
`len == capacity` (the buffer is full), the capacity grows by exactly 512
bits (64 bytes) before the new bit is stored — not by 64 bits as claimed:
the reservation loop body pushes 64 zero bytes, adding 8 bits of capacity
each. -/
theorem mutableBitBuffer_push_grows_512 (b : MutableBitBuffer) (v : Bool)
    (h : b.len = b.capacity) :
    (b.push v).capacity = b.capacity + 512 := by
  rw [MutableBitBuffer.push_capacity]
  show (MutableBitBuffer.reserveFuel (b.len + 1 + 1) b).capacity = b.capacity + 512
  rw [MutableBitBuffer.reserveFuel, if_pos (by omega)]
  rw [MutableBitBuffer.reserveFuel,
    if_neg (by simp [MutableBitBuffer.pushZeroBytes_len,
      MutableBitBuffer.pushZeroBytes_capacity]; omega)]
  simp [MutableBitBuffer.pushZeroBytes_capacity]

/-- Witness for C9: a fresh buffer (`len = capacity = 0`); the first push
raises the capacity to 512. -/
theorem mutableBitBuffer_push_grows_512_witness :
    (MutableBitBuffer.default.push true).capacity = MutableBitBuffer.default.capacity + 512 :=
  mutableBitBuffer_push_grows_512 MutableBitBuffer.default true rfl

/-- Counterexample for C9 as stated: on the full fresh buffer the capacity
after `push` is 512, not `capacity + 64`. -/
theorem mutableBitBuffer_push_not_64_cex :
    (MutableBitBuffer.default.push true).capacity ≠ MutableBitBuffer.default.capacity + 64 := by
  decide

/-! ## `internal/serialization/utils.rs`: `MutableOffsetBuffer`

The builder-side offsets buffer, generic over the offset type `O` (i32 or
i64 in the source).  Offsets are modelled as `Int` together with the type's
maximum value `maxVal` (`2^31 - 1` resp. `2^63 - 1`). -/

structure MutableOffsetBuffer where
  offsets : List Int
  current_items : Int
deriving DecidableEq, Repr

/-- Modelled from the spec: `O::try_form_usize` (trait `Offset` in
`internal/utils`, not part of the provided sources) converts a `usize` count
into the offset type, failing when it exceeds the type's maximum. -/
def try_form_usize (maxVal : Nat) (n : Nat) : Except String Int :=
  if n ≤ maxVal then .ok (n : Int) else .error "value does not fit into the offset type"

namespace MutableOffsetBuffer

/-- Source: `Default for MutableOffsetBuffer`: one zero offset, zero items. -/
def default : MutableOffsetBuffer := ⟨[0], 0⟩

/-- Source: `MutableOffsetBuffer::len`: the number of items pushed (one less
than the number of offsets). -/
def length (s : MutableOffsetBuffer) : Nat := s.offsets.length - 1

/-- Source: `MutableOffsetBuffer::push`: add `num_children` to
`current_items` and append the new value to `offsets`.  The `+` on the
offset type is checked: an overflow past `maxVal` is a panic. -/
def push (maxVal : Nat) (s : MutableOffsetBuffer) (num_children : Nat) :
    Except String MutableOffsetBuffer :=
  match try_form_usize maxVal num_children with
  | .error e => .error e
  | .ok v =>
    let sum := s.current_items + v
    if sum > (maxVal : Int) then .error "panicked: attempt to add with overflow"
    else .ok ⟨s.offsets ++ [sum], sum⟩

/-- Source: `MutableOffsetBuffer::push_current_items`. -/
def push_current_items (s : MutableOffsetBuffer) : MutableOffsetBuffer :=
  ⟨s.offsets ++ [s.current_items], s.current_items⟩

/-- Source: `MutableOffsetBuffer::inc_current_items`. -/
def inc_current_items (maxVal : Nat) (s : MutableOffsetBuffer) :
    Except String MutableOffsetBuffer :=
  match try_form_usize maxVal 1 with
  | .error e => .error e
  | .ok v =>
    let sum := s.current_items + v
    if sum > (maxVal : Int) then .error "panicked: attempt to add with overflow"
    else .ok ⟨s.offsets, sum⟩

end MutableOffsetBuffer

/-- The three mutating operations of `MutableOffsetBuffer` named in the
claim. -/
inductive OffsetOp where
  | push (n : Nat)
  | incCurrentItems
  | pushCurrentItems
deriving DecidableEq, Repr

/-- One operation applied to a buffer state. -/
def applyOffsetOp (maxVal : Nat) (s : MutableOffsetBuffer) :
    OffsetOp → Except String MutableOffsetBuffer
  | .push n => s.push maxVal n
  | .incCurrentItems => s.inc_current_items maxVal
  | .pushCurrentItems => .ok s.push_current_items

/-- A sequence of operations applied from a starting state, stopping at the
first failure. -/
def runOffsetOps (maxVal : Nat) : MutableOffsetBuffer → List OffsetOp →
    Except String MutableOffsetBuffer
  | s, [] => .ok s
  | s, op :: ops =>
    match applyOffsetOp maxVal s op with
    | .error e => .error e
    | .ok s2 => runOffsetOps maxVal s2 ops

/-- The invariant of the claim: offsets start at 0, are non-decreasing, and
the last offset is bounded by `current_items`. -/
def OffsetInv (s : MutableOffsetBuffer) : Prop :=
  s.offsets.head? = some 0 ∧ List.Chain' (· ≤ ·) s.offsets ∧
    ∀ x, s.offsets.getLast? = some x → x ≤ s.current_items

theorem offsetInv_append (s : MutableOffsetBuffer) (x : Int)
    (hInv : OffsetInv s) (hx : s.current_items ≤ x) :
    OffsetInv ⟨s.offsets ++ [x], x⟩ := by
  obtain ⟨h0, hchain, hlast⟩ := hInv
  refine ⟨?_, ?_, ?_⟩
  · match hs : s.offsets with
    | [] => rw [hs] at h0; cases h0
    | a :: t =>
      rw [hs] at h0
      simpa using h0
  · refine List.chain'_append.mpr ⟨hchain, List.chain'_singleton x, ?_⟩
    intro a ha b hb
    simp only [List.head?_cons, Option.mem_def, Option.some.injEq] at hb
    subst hb
    exact le_trans (hlast a ha) hx
  · intro y hy
    rw [List.getLast?_concat] at hy
    cases hy
    exact le_refl x

theorem applyOffsetOp_inv (maxVal : Nat) (s s2 : MutableOffsetBuffer) (op : OffsetOp)
    (hInv : OffsetInv s) (h : applyOffsetOp maxVal s op = .ok s2) : OffsetInv s2 := by
  match op with
  | .push n =>
    rw [applyOffsetOp, MutableOffsetBuffer.push, try_form_usize] at h
    by_cases hn : n ≤ maxVal
    · rw [if_pos hn] at h
      dsimp only at h
      by_cases hsum : s.current_items + (n : Int) > (maxVal : Int)
      · rw [if_pos hsum] at h; cases h
      · rw [if_neg hsum] at h
        cases h
        exact offsetInv_append s _ hInv (by omega)
    · rw [if_neg hn] at h; cases h
  | .incCurrentItems =>
    rw [applyOffsetOp, MutableOffsetBuffer.inc_current_items, try_form_usize] at h
    by_cases hn : 1 ≤ maxVal
    · rw [if_pos hn] at h
      dsimp only at h
      by_cases hsum : s.current_items + ((1 : Nat) : Int) > (maxVal : Int)
      · rw [if_pos hsum] at h; cases h
      · rw [if_neg hsum] at h
        cases h
        obtain ⟨h0, hchain, hlast⟩ := hInv
        refine ⟨h0, hchain, fun x hx => ?_⟩
        have := hlast x hx
        show x ≤ s.current_items + ((1 : Nat) : Int)
        omega
    · rw [if_neg hn] at h; cases h
  | .pushCurrentItems =>
    rw [applyOffsetOp] at h
    cases h
    exact offsetInv_append s _ hInv (le_refl _)

theorem runOffsetOps_inv (maxVal : Nat) (ops : List OffsetOp)
    (s s2 : MutableOffsetBuffer) (hInv : OffsetInv s)
    (h : runOffsetOps maxVal s ops = .ok s2) : OffsetInv s2 := by
  induction ops generalizing s with
  | nil =>
    rw [runOffsetOps] at h
    cases h
    exact hInv
  | cons op ops ih =>
    rw [runOffsetOps] at h
    match hop : applyOffsetOp maxVal s op with
    | .error e => rw [hop] at h; cases h
    | .ok s1 =>
      rw [hop] at h
      exact ih s1 (applyOffsetOp_inv maxVal s s1 op hInv hop) h

/-- C5: starting from `MutableOffsetBuffer::default()`, after any successful
sequence of `push`, `inc_current_items` and `push_current_items` operations
(for any offset-type bound `maxVal`), the offsets begin with 0, are
monotonically non-decreasing, their last entry is at most `current_items`,
and `len()` equals `offsets.len() - 1`. -/
theorem mutableOffsetBuffer_invariant (maxVal : Nat) (ops : List OffsetOp)
    (s : MutableOffsetBuffer)
    (h : runOffsetOps maxVal MutableOffsetBuffer.default ops = .ok s) :
    s.offsets.head? = some 0
    ∧ List.Chain' (· ≤ ·) s.offsets
    ∧ (∀ x, s.offsets.getLast? = some x → x ≤ s.current_items)
    ∧ s.length = s.offsets.length - 1 := by
  have hInv0 : OffsetInv MutableOffsetBuffer.default :=
    ⟨rfl, List.chain'_singleton 0, fun x hx => by cases hx; exact le_refl _⟩
  obtain ⟨h0, hchain, hlast⟩ := runOffsetOps_inv maxVal ops _ s hInv0 h
  exact ⟨h0, hchain, hlast, rfl⟩

/-- Witness for C5: the operation sequence `push 2; inc_current_items;
push_current_items` over the `i32` bound succeeds with offsets `[0, 2, 3]`
and `current_items = 3`, and the invariant holds there. -/
theorem mutableOffsetBuffer_invariant_witness :
    (⟨[0, 2, 3], 3⟩ : MutableOffsetBuffer).offsets.head? = some 0
    ∧ List.Chain' (· ≤ ·) (⟨[0, 2, 3], 3⟩ : MutableOffsetBuffer).offsets
    ∧ (∀ x, (⟨[0, 2, 3], 3⟩ : MutableOffsetBuffer).offsets.getLast? = some x →
        x ≤ (⟨[0, 2, 3], 3⟩ : MutableOffsetBuffer).current_items)
    ∧ (⟨[0, 2, 3], 3⟩ : MutableOffsetBuffer).length =
        (⟨[0, 2, 3], 3⟩ : MutableOffsetBuffer).offsets.length - 1 :=
  mutableOffsetBuffer_invariant 2147483647
    [.push 2, .incCurrentItems, .pushCurrentItems] ⟨[0, 2, 3], 3⟩ rfl

/-! ## `internal/serialization/utils.rs`: validity helpers, and
`internal/serialization/fixed_size_list_builder.rs` -/

/-- Source: `internal/serialization/utils.rs`, `push_validity`. -/
def push_validity (buffer : Option MutableBitBuffer) (value : Bool) :
    Except String (Option MutableBitBuffer) :=
  match buffer with
  | some b => .ok (some (b.push value))
  | none =>
    if value then .ok none
    else .error "cannot push null for non-nullable array"

/-- Source: `internal/serialization/utils.rs`, `push_validity_default`. -/
def push_validity_default (buffer : Option MutableBitBuffer) : Option MutableBitBuffer :=
  match buffer with
  | some b => some (b.push false)
  | none => none

/-- Modelled from the spec: `CountArray` (from `internal/utils/array_ext.rs`,
not part of the provided sources) tracks the length and validity bitmap of a
fixed-size-list array; it has no offsets of its own. -/
structure CountArray where
  len : Nat
  validity : Option MutableBitBuffer
deriving DecidableEq, Repr

namespace CountArray

/-- Modelled from the spec: `CountArray::new` starts empty, with a validity
bitmap exactly when the field is nullable. -/
def new (is_nullable : Bool) : CountArray :=
  ⟨0, if is_nullable then some MutableBitBuffer.default else none⟩

/-- Modelled from the spec: beginning a sequence row changes nothing yet. -/
def start_seq (s : CountArray) : Except String CountArray := .ok s

/-- Modelled from the spec: a count array keeps no per-element state. -/
def push_seq_elements (s : CountArray) (_count : Nat) : Except String CountArray :=
  .ok s

/-- Modelled from the spec: finishing a row records one valid slot. -/
def end_seq (s : CountArray) : Except String CountArray :=
  match push_validity s.validity true with
  | .error e => .error e
  | .ok v => .ok ⟨s.len + 1, v⟩

/-- Modelled from the spec: a default row records one slot with a cleared
validity bit (when a bitmap is present). -/
def push_seq_default (s : CountArray) : Except String CountArray :=
  .ok ⟨s.len + 1, push_validity_default s.validity⟩

/-- Modelled from the spec: a null row records one slot with a cleared
validity bit, failing for non-nullable arrays. -/
def push_seq_none (s : CountArray) : Except String CountArray :=
  match push_validity s.validity false with
  | .error e => .error e
  | .ok v => .ok ⟨s.len + 1, v⟩

end CountArray

/-- An event forwarded to the element child builder.  The child `ArrayBuilder`
(a large tagged union whose sources are not part of the claim) is modelled as
an event sink recording the events it receives. -/
inductive ChildEvent where
  | default
  | value
deriving DecidableEq, Repr

/-- Source: `internal/serialization/fixed_size_list_builder.rs`,
`FixedSizeListBuilder` (the `path` and `meta` fields carry no behaviour for
the claim and are omitted; the boxed `element` child builder is modelled as
the list of events forwarded to it). -/
structure FixedSizeListBuilder where
  seq : CountArray
  n : Nat
  current_count : Nat
  elementEvents : List ChildEvent
deriving DecidableEq, Repr

namespace FixedSizeListBuilder

/-- Source: `FixedSizeListBuilder::start`. -/
def start (b : FixedSizeListBuilder) : Except String FixedSizeListBuilder :=
  match b.seq.start_seq with
  | .error e => .error e
  | .ok seq => .ok { b with current_count := 0, seq := seq }

/-- Source: `FixedSizeListBuilder::element`: bump the element count, count the
element in the seq array, and forward the value to the element child. -/
def element (b : FixedSizeListBuilder) : Except String FixedSizeListBuilder :=
  match b.seq.push_seq_elements 1 with
  | .error e => .error e
  | .ok seq =>
    .ok { b with
      current_count := b.current_count + 1,
      seq := seq,
      elementEvents := b.elementEvents ++ [ChildEvent.value] }

/-- Source: `FixedSizeListBuilder::end`: fail unless exactly `n` elements
were recorded since `start`, then close the row.  The error string renders
the `fail!` format of the source. -/
def endStep (b : FixedSizeListBuilder) : Except String FixedSizeListBuilder :=
  if b.current_count ≠ b.n then
    .error ("Invalid number of elements for FixedSizedList" ++
      ("(" ++ toString b.n ++ "). Expected " ++ toString b.n ++
        ", got " ++ toString b.current_count))
  else
    match b.seq.end_seq with
    | .error e => .error e
    | .ok seq => .ok { b with seq := seq }

/-- Source: `FixedSizeListBuilder::serialize_none`: record one null slot and
forward `n` `serialize_default` events to the element child. -/
def serialize_none (b : FixedSizeListBuilder) : Except String FixedSizeListBuilder :=
  match b.seq.push_seq_none with
  | .error e => .error e
  | .ok seq =>
    .ok { b with
      seq := seq,
      elementEvents := b.elementEvents ++ List.replicate b.n ChildEvent.default }

/-- Source: `FixedSizeListBuilder::serialize_default`: record one default
slot and forward `n` `serialize_default` events to the element child. -/
def serialize_default (b : FixedSizeListBuilder) : Except String FixedSizeListBuilder :=
  match b.seq.push_seq_default with
  | .error e => .error e
  | .ok seq =>
    .ok { b with
      seq := seq,
      elementEvents := b.elementEvents ++ List.replicate b.n ChildEvent.default }

/-- Source: `serialize_seq_start` (the length hint is ignored). -/
def serialize_seq_start (b : FixedSizeListBuilder) : Except String FixedSizeListBuilder :=
  b.start

/-- Source: `serialize_seq_element`. -/
def serialize_seq_element (b : FixedSizeListBuilder) : Except String FixedSizeListBuilder :=
  b.element

/-- Source: `serialize_seq_end`. -/
def serialize_seq_end (b : FixedSizeListBuilder) : Except String FixedSizeListBuilder :=
  b.endStep

/-- Source: `serialize_tuple_end`. -/
def serialize_tuple_end (b : FixedSizeListBuilder) : Except String FixedSizeListBuilder :=
  b.endStep

/-- Source: `serialize_tuple_struct_end`. -/
def serialize_tuple_struct_end (b : FixedSizeListBuilder) :
    Except String FixedSizeListBuilder :=
  b.endStep

end FixedSizeListBuilder

/-- `k` consecutive element events. -/
def iterElements : FixedSizeListBuilder → Nat → Except String FixedSizeListBuilder
  | b, 0 => .ok b
  | b, k + 1 =>
    match b.element with
    | .error e => .error e
    | .ok b2 => iterElements b2 k

/-- A start event followed by `k` element events. -/
def startAndElements (b : FixedSizeListBuilder) (k : Nat) :
    Except String FixedSizeListBuilder :=
  match b.serialize_seq_start with
  | .error e => .error e
  | .ok b1 => iterElements b1 k

theorem iterElements_ok (b : FixedSizeListBuilder) (k : Nat) :
    iterElements b k = .ok { b with
      current_count := b.current_count + k,
      elementEvents := b.elementEvents ++ List.replicate k ChildEvent.value } := by
  induction k generalizing b with
  | zero => simp [iterElements]
  | succ k ih =>
    rw [iterElements, FixedSizeListBuilder.element, CountArray.push_seq_elements]
    dsimp only
    rw [ih]
    simp only [Except.ok.injEq, FixedSizeListBuilder.mk.injEq, true_and]
    refine ⟨by omega, ?_⟩
    rw [List.append_assoc]
    congr 1

theorem startAndElements_ok (b : FixedSizeListBuilder) (k : Nat) :
    startAndElements b k = .ok { b with
      current_count := k,
      elementEvents := b.elementEvents ++ List.replicate k ChildEvent.value } := by
  rw [startAndElements, FixedSizeListBuilder.serialize_seq_start,
    FixedSizeListBuilder.start, CountArray.start_seq]
  dsimp only
  rw [iterElements_ok]
  simp

/-- C6: for every `FixedSizeListBuilder` with stride `n`, the end event
(`serialize_seq_end`, identical to the tuple and tuple-struct end events)
after a start event and `k` element events succeeds iff `k = n`, and
otherwise fails with an error containing "Invalid number of elements for
FixedSizedList"; `serialize_none` (on a nullable builder) and
`serialize_default` each record one null/default slot and forward exactly
`n` `serialize_default` events to the element child builder. -/
theorem fixedSizeListBuilder_spec (b b2 : FixedSizeListBuilder) (k : Nat)
    (h : startAndElements b k = .ok b2) :
    (isOk b2.serialize_seq_end = true ↔ k = b.n)
    ∧ (k ≠ b.n → ∃ e, b2.serialize_seq_end = .error e ∧
        StrContains e "Invalid number of elements for FixedSizedList")
    ∧ b2.serialize_tuple_end = b2.serialize_seq_end
    ∧ b2.serialize_tuple_struct_end = b2.serialize_seq_end
    ∧ (∀ v, b.seq.validity = some v →
        b.serialize_none = .ok { b with
          seq := ⟨b.seq.len + 1, some (v.push false)⟩,
          elementEvents := b.elementEvents ++ List.replicate b.n ChildEvent.default })
    ∧ b.serialize_default = .ok { b with
        seq := ⟨b.seq.len + 1, push_validity_default b.seq.validity⟩,
        elementEvents := b.elementEvents ++ List.replicate b.n ChildEvent.default } := by
  rw [startAndElements_ok] at h
  cases h
  refine ⟨?_, ?_, rfl, rfl, ?_, ?_⟩
  · rw [FixedSizeListBuilder.serialize_seq_end, FixedSizeListBuilder.endStep]
    dsimp only
    by_cases hk : k = b.n
    · rw [if_neg (by simpa using hk)]
      rw [CountArray.end_seq]
      match hv : b.seq.validity with
      | some w => simp [push_validity, hv, isOk, hk]
      | none => simp [push_validity, hv, isOk, hk]
    · rw [if_pos (by simpa using hk)]
      simp [isOk, hk]
  · intro hk
    rw [FixedSizeListBuilder.serialize_seq_end, FixedSizeListBuilder.endStep]
    dsimp only
    rw [if_pos (by simpa using hk)]
    exact ⟨_, rfl, strContains_append _ _⟩
  · intro v hv
    rw [FixedSizeListBuilder.serialize_none, CountArray.push_seq_none, hv, push_validity]
  · rw [FixedSizeListBuilder.serialize_default, CountArray.push_seq_default]

/-- The concrete builder for the C6 witness: stride 2, nullable, fresh. -/
def fslExample : FixedSizeListBuilder := ⟨CountArray.new true, 2, 0, []⟩

/-- `fslExample` after a start event and one element event. -/
def fslExampleAfter : FixedSizeListBuilder :=
  ⟨CountArray.new true, 2, 1, [ChildEvent.value]⟩

/-- Witness for C6: the theorem applied to the stride-2 builder after one
element event (the end event fails there with the FixedSizedList message). -/
theorem fixedSizeListBuilder_spec_witness :
    (isOk fslExampleAfter.serialize_seq_end = true ↔ 1 = fslExample.n)
    ∧ (1 ≠ fslExample.n → ∃ e, fslExampleAfter.serialize_seq_end = .error e ∧
        StrContains e "Invalid number of elements for FixedSizedList")
    ∧ fslExampleAfter.serialize_tuple_end = fslExampleAfter.serialize_seq_end
    ∧ fslExampleAfter.serialize_tuple_struct_end = fslExampleAfter.serialize_seq_end
    ∧ (∀ v, fslExample.seq.validity = some v →
        fslExample.serialize_none = .ok { fslExample with
          seq := ⟨fslExample.seq.len + 1, some (v.push false)⟩,
          elementEvents := fslExample.elementEvents ++
            List.replicate fslExample.n ChildEvent.default })
    ∧ fslExample.serialize_default = .ok { fslExample with
        seq := ⟨fslExample.seq.len + 1, push_validity_default fslExample.seq.validity⟩,
        elementEvents := fslExample.elementEvents ++
          List.replicate fslExample.n ChildEvent.default } :=
  fixedSizeListBuilder_spec fslExample fslExampleAfter 1 rfl

/-! ## `internal/arrow`: array views, field metadata and strategies -/

/-- Source: `internal/arrow/data_type.rs`, `TimeUnit`. -/
inductive TimeUnit where
  | second
  | millisecond
  | microsecond
  | nanosecond
deriving DecidableEq, Repr

/-- Source: `internal/schema` (re-exported), the closed `Strategy` enum of
§6 of the spec. -/
inductive Strategy where
  | tupleAsStruct
  | mapAsStruct
  | naiveStrAsDate64
  | utcStrAsDate64
  | enumsWithNamedFieldsAsMaps
deriving DecidableEq, Repr

/-- The `Display` rendering of a strategy (its canonical name). -/
def Strategy.name : Strategy → String
  | .tupleAsStruct => "TupleAsStruct"
  | .mapAsStruct => "MapAsStruct"
  | .naiveStrAsDate64 => "NaiveStrAsDate64"
  | .utcStrAsDate64 => "UtcStrAsDate64"
  | .enumsWithNamedFieldsAsMaps => "EnumsWithNamedFieldsAsMaps"

/-- The reserved metadata key of §3 of the spec. -/
def STRATEGY_KEY : String := "SERDE_ARROW::STRATEGY"

/-- Modelled from the spec (§6): parsing a strategy string; an unknown value
fails.  (`Strategy::from_str` lives in `internal/schema`, not part of the
provided sources.) -/
def Strategy.parse (s : String) : Except String Strategy :=
  if s = "TupleAsStruct" then .ok .tupleAsStruct
  else if s = "MapAsStruct" then .ok .mapAsStruct
  else if s = "NaiveStrAsDate64" then .ok .naiveStrAsDate64
  else if s = "UtcStrAsDate64" then .ok .utcStrAsDate64
  else if s = "EnumsWithNamedFieldsAsMaps" then .ok .enumsWithNamedFieldsAsMaps
  else .error ("Unknown strategy: " ++ s)

/-- Source: `internal/arrow`, `FieldMeta` (name, nullability, metadata map;
the map is modelled as an association list). -/
structure FieldMeta where
  name : String
  nullable : Bool
  metadata : List (String × String)
deriving DecidableEq, Repr

/-- Source: `internal/deserialization/array_deserializer.rs`,
`get_strategy`. -/
def get_strategy (meta : FieldMeta) : Except String (Option Strategy) :=
  match meta.metadata.lookup STRATEGY_KEY with
  | none => .ok none
  | some s =>
    match Strategy.parse s with
    | .error e => .error e
    | .ok strategy => .ok (some strategy)

/-- Source: `internal/arrow/array_view.rs`, `PrimitiveArrayView` (values
modelled as `Int`, which embeds every primitive value type the claims
touch). -/
structure PrimitiveArrayView where
  values : List Int
  validity : Option BitsWithOffset
deriving DecidableEq, Repr

/-- Source: `internal/arrow/array_view.rs`, `ArrayView`: the borrowed
column data, one constructor per supported Arrow layout.  Nested views
(`ListArrayView`, `StructArrayView`, `DenseUnionArrayView`, ...) are
inlined as constructor arguments. -/
inductive ArrayView where
  | null (len : Nat)
  | boolean (len : Nat) (validity : Option BitsWithOffset) (values : BitsWithOffset)
  | int8 (view : PrimitiveArrayView)
  | int16 (view : PrimitiveArrayView)
  | int32 (view : PrimitiveArrayView)
  | int64 (view : PrimitiveArrayView)
  | uint8 (view : PrimitiveArrayView)
  | uint16 (view : PrimitiveArrayView)
  | uint32 (view : PrimitiveArrayView)
  | uint64 (view : PrimitiveArrayView)
  | float16 (view : PrimitiveArrayView)
  | float32 (view : PrimitiveArrayView)
  | float64 (view : PrimitiveArrayView)
  | decimal128 (precision : Nat) (scale : Int) (view : PrimitiveArrayView)
  | date32 (view : PrimitiveArrayView)
  | date64 (view : PrimitiveArrayView)
  | time32 (unit : TimeUnit) (view : PrimitiveArrayView)
  | time64 (unit : TimeUnit) (view : PrimitiveArrayView)
  | timestamp (unit : TimeUnit) (timezone : Option String)
      (values : List Int) (validity : Option BitsWithOffset)
  | duration (unit : TimeUnit) (values : List Int) (validity : Option BitsWithOffset)
  | utf8 (offsets : List Int) (validity : Option BitsWithOffset)
  | largeUtf8 (offsets : List Int) (validity : Option BitsWithOffset)
  | binary (offsets : List Int) (validity : Option BitsWithOffset)
  | largeBinary (offsets : List Int) (validity : Option BitsWithOffset)
  | fixedSizeBinary (n : Int) (validity : Option BitsWithOffset)
  | list (meta : FieldMeta) (element : ArrayView)
      (offsets : List Int) (validity : Option BitsWithOffset)
  | largeList (meta : FieldMeta) (element : ArrayView)
      (offsets : List Int) (validity : Option BitsWithOffset)
  | fixedSizeList (len : Nat) (n : Int) (meta : FieldMeta)
      (element : ArrayView) (validity : Option BitsWithOffset)
  | struct (len : Nat) (validity : Option BitsWithOffset)
      (fields : List (ArrayView × FieldMeta))
  | map (meta : FieldMeta) (element : ArrayView)
      (offsets : List Int) (validity : Option BitsWithOffset)
  | dictionary (indices : ArrayView) (values : ArrayView)
  | denseUnion (types : List Int) (offsets : List Int)
      (fields : List (Int × ArrayView × FieldMeta))
deriving Repr

/-- Source: `internal/deserialization/array_deserializer.rs`,
`ArrayDeserializer` — the tagged dispatch union over all concrete
deserializers.  Each constructor retains the data the claims are about
(children, the time unit and UTC flag of `Date64Deserializer`); the other
per-variant payloads (paths, buffers) carry no behaviour for the claims. -/
inductive ArrayDeserializer where
  | null
  | bool
  | u8
  | u16
  | u32
  | u64
  | i8
  | i16
  | i32
  | i64
  | f16
  | f32
  | f64
  | decimal128
  | duration (unit : TimeUnit)
  | date32
  | date64 (unit : TimeUnit) (isUtc : Bool)
  | time32
  | time64
  | utf8
  | largeUtf8
  | dictionaryU8I32
  | dictionaryU16I32
  | dictionaryU32I32
  | dictionaryU64I32
  | dictionaryI8I32
  | dictionaryI16I32
  | dictionaryI32I32
  | dictionaryI64I32
  | dictionaryU8I64
  | dictionaryU16I64
  | dictionaryU32I64
  | dictionaryU64I64
  | dictionaryI8I64
  | dictionaryI16I64
  | dictionaryI32I64
  | dictionaryI64I64
  | structDeser (fields : List (String × ArrayDeserializer))
  | list (item : ArrayDeserializer)
  | largeList (item : ArrayDeserializer)
  | fixedSizeList (item : ArrayDeserializer) (n : Nat) (len : Nat)
  | binary
  | largeBinary
  | fixedSizeBinary
  | mapDeser (keys : ArrayDeserializer) (values : ArrayDeserializer)
  | enumDeser (fields : List (String × ArrayDeserializer))
deriving Repr

/-- Modelled from the spec (§9 "path threading"): a child path appends the
child name with a dot separator.  (`ChildName` escaping is elided: no claim
involves path contents.) -/
def childPath (path name : String) : String := path ++ "." ++ name

/-- Modelled Rust `String::to_lowercase` (per-character case mapping; the
ASCII mapping suffices for the strings of the claims). -/
def rust_to_lowercase (s : String) : String :=
  String.mk (s.data.map Char.toLower)

/-- Source: `internal/deserialization/array_deserializer.rs`,
`is_utc_timestamp`. -/
def is_utc_timestamp (timezone : Option String) : Except String Bool :=
  match timezone with
  | some tz =>
    if rust_to_lowercase tz = "utc" then .ok true
    else .error ("Unsupported timezone" ++ (": " ++ tz ++ " is not supported"))
  | none => .ok false

/-- Source: `internal/deserialization/array_deserializer.rs`,
`is_utc_date64`. -/
def is_utc_date64 (strategy : Option Strategy) : Except String Bool :=
  match strategy with
  | none | some .utcStrAsDate64 => .ok true
  | some .naiveStrAsDate64 => .ok false
  | some strategy =>
    .error ("Invalid strategy: " ++ strategy.name ++
      " is not supported for date64 deserializer")

mutual

/-- Source: `ArrayDeserializer::new` — constructs the deserializer tree for
an array view.  The `?` operator is translated as explicit matches; the
child deserializer constructors that are not part of the provided sources
are modelled from the spec: the primitive constructors always succeed,
`ListDeserializer::new`/`MapDeserializer::new` enforce the supported-layout
restriction via `check_supported_list_layout` (spec §3 and scenario 6), and
`EnumDeserializer::new` and `DictionaryDeserializer::new` succeed. -/
def ArrayDeserializer.new (path : String) (strategy : Option Strategy) :
    ArrayView → Except String ArrayDeserializer
  | .null _ => .ok .null
  | .boolean _ _ _ => .ok .bool
  | .int8 _ => .ok .i8
  | .int16 _ => .ok .i16
  | .int32 _ => .ok .i32
  | .int64 _ => .ok .i64
  | .uint8 _ => .ok .u8
  | .uint16 _ => .ok .u16
  | .uint32 _ => .ok .u32
  | .uint64 _ => .ok .u64
  | .float16 _ => .ok .f16
  | .float32 _ => .ok .f32
  | .float64 _ => .ok .f64
  | .decimal128 _ _ _ => .ok .decimal128
  | .date32 _ => .ok .date32
  | .date64 _ =>
    match is_utc_date64 strategy with
    | .error e => .error e
    | .ok utc => .ok (.date64 .millisecond utc)
  | .time32 _ _ => .ok .time32
  | .time64 _ _ => .ok .time64
  | .timestamp unit timezone _ _ =>
    match strategy with
    | some .naiveStrAsDate64 | some .utcStrAsDate64 =>
      match is_utc_timestamp timezone with
      | .error e => .error e
      | .ok utc => .ok (.date64 unit utc)
    | some strategy =>
      .error ("Invalid strategy: " ++ strategy.name ++
        " is not supported for timestamp field")
    | none =>
      match is_utc_timestamp timezone with
      | .error e => .error e
      | .ok utc => .ok (.date64 unit utc)
  | .duration unit _ _ => .ok (.duration unit)
  | .utf8 _ _ => .ok .utf8
  | .largeUtf8 _ _ => .ok .largeUtf8
  | .binary _ _ => .ok .binary
  | .largeBinary _ _ => .ok .largeBinary
  | .fixedSizeBinary _ _ => .ok .fixedSizeBinary
  | .list meta element offsets validity =>
    match get_strategy meta with
    | .error e => .error e
    | .ok childStrategy =>
      match ArrayDeserializer.new (childPath path meta.name) childStrategy element with
      | .error e => .error e
      | .ok item =>
        match check_supported_list_layout validity offsets with
        | .error e => .error e
        | .ok _ => .ok (.list item)
  | .largeList meta element offsets validity =>
    match get_strategy meta with
    | .error e => .error e
    | .ok childStrategy =>
      match ArrayDeserializer.new (childPath path meta.name) childStrategy element with
      | .error e => .error e
      | .ok item =>
        match check_supported_list_layout validity offsets with
        | .error e => .error e
        | .ok _ => .ok (.largeList item)
  | .fixedSizeList len n meta element validity =>
    match get_strategy meta with
    | .error e => .error e
    | .ok childStrategy =>
      match ArrayDeserializer.new (childPath path meta.name) childStrategy element with
      | .error e => .error e
      | .ok item =>
        match try_into_usize n with
        | .error e => .error e
        | .ok nn => .ok (.fixedSizeList item nn len)
  | .struct _ _ fields =>
    match ArrayDeserializer.newStructFields path fields with
    | .error e => .error e
    | .ok fs => .ok (.structDeser fs)
  | .map _ element offsets validity =>
    match element with
    | .struct _ _ [(keysView, keysMeta), (valuesView, valuesMeta)] =>
      match get_strategy keysMeta with
      | .error e => .error e
      | .ok keysStrategy =>
        match ArrayDeserializer.new (childPath path keysMeta.name) keysStrategy keysView with
        | .error e => .error e
        | .ok keys =>
          match get_strategy valuesMeta with
          | .error e => .error e
          | .ok valuesStrategy =>
            match ArrayDeserializer.new (childPath path valuesMeta.name)
                valuesStrategy valuesView with
            | .error e => .error e
            | .ok values =>
              match check_supported_list_layout validity offsets with
              | .error e => .error e
              | .ok _ => .ok (.mapDeser keys values)
    | _ => .error "Invalid entries field in map array"
  | .dictionary indices values =>
    match indices, values with
    | .int8 _, .utf8 _ _ => .ok .dictionaryI8I32
    | .int16 _, .utf8 _ _ => .ok .dictionaryI16I32
    | .int32 _, .utf8 _ _ => .ok .dictionaryI32I32
    | .int64 _, .utf8 _ _ => .ok .dictionaryI64I32
    | .uint8 _, .utf8 _ _ => .ok .dictionaryU8I32
    | .uint16 _, .utf8 _ _ => .ok .dictionaryU16I32
    | .uint32 _, .utf8 _ _ => .ok .dictionaryU32I32
    | .uint64 _, .utf8 _ _ => .ok .dictionaryU64I32
    | .int8 _, .largeUtf8 _ _ => .ok .dictionaryI8I64
    | .int16 _, .largeUtf8 _ _ => .ok .dictionaryI16I64
    | .int32 _, .largeUtf8 _ _ => .ok .dictionaryI32I64
    | .int64 _, .largeUtf8 _ _ => .ok .dictionaryI64I64
    | .uint8 _, .largeUtf8 _ _ => .ok .dictionaryU8I64
    | .uint16 _, .largeUtf8 _ _ => .ok .dictionaryU16I64
    | .uint32 _, .largeUtf8 _ _ => .ok .dictionaryU32I64
    | .uint64 _, .largeUtf8 _ _ => .ok .dictionaryU64I64
    | _, _ => .error "Unsupported dictionary array type"
  | .denseUnion _ _ fields =>
    match ArrayDeserializer.newUnionFields path 0 fields with
    | .error e => .error e
    | .ok fs => .ok (.enumDeser fs)
termination_by v => sizeOf v
decreasing_by all_goals (simp_wf <;> omega)

/-- The field loop of the `ArrayView::Struct` branch of
`ArrayDeserializer::new`. -/
def ArrayDeserializer.newStructFields (path : String) :
    List (ArrayView × FieldMeta) → Except String (List (String × ArrayDeserializer))
  | [] => .ok []
  | (fieldView, fieldMeta) :: rest =>
    match get_strategy fieldMeta with
    | .error e => .error e
    | .ok fieldStrategy =>
      match ArrayDeserializer.new (childPath path fieldMeta.name) fieldStrategy fieldView with
      | .error e => .error e
      | .ok d =>
        match ArrayDeserializer.newStructFields path rest with
        | .error e => .error e
        | .ok ds => .ok ((fieldMeta.name, d) :: ds)
termination_by l => sizeOf l
decreasing_by all_goals (simp_wf <;> omega)

/-- The enumerated field loop of the `ArrayView::DenseUnion` branch of
`ArrayDeserializer::new`, carrying the running index `idx`.  The source
check `usize::try_from(type_id) != Ok(idx)` (which is also true for
negative type ids) is the integer disequality `typeId ≠ idx`. -/
def ArrayDeserializer.newUnionFields (path : String) (idx : Nat) :
    List (Int × ArrayView × FieldMeta) →
      Except String (List (String × ArrayDeserializer))
  | [] => .ok []
  | (typeId, fieldView, fieldMeta) :: rest =>
    if typeId ≠ (idx : Int) then
      .error "Only unions with consecutive type ids are currently supported"
    else
      match get_strategy fieldMeta with
      | .error e => .error e
      | .ok fieldStrategy =>
        match ArrayDeserializer.new (childPath path fieldMeta.name)
            fieldStrategy fieldView with
        | .error e => .error e
        | .ok d =>
          match ArrayDeserializer.newUnionFields path (idx + 1) rest with
          | .error e => .error e
          | .ok ds => .ok ((fieldMeta.name, d) :: ds)
termination_by l => sizeOf l
decreasing_by all_goals (simp_wf <;> omega)

end


/-- Every string contains itself. -/
theorem strContains_refl (s : String) : StrContains s s :=
  ⟨[], [], by simp⟩

/-- On a timestamp view, under every strategy that lets construction proceed
(no strategy, `NaiveStrAsDate64`, or `UtcStrAsDate64`), `ArrayDeserializer::new`
reduces to `is_utc_timestamp` on the view's timezone. -/
theorem new_timestamp_eq (path : String) (strategy : Option Strategy)
    (unit : TimeUnit) (tz : Option String) (values : List Int)
    (validity : Option BitsWithOffset)
    (hstrat : strategy = none ∨ strategy = some .naiveStrAsDate64 ∨
      strategy = some .utcStrAsDate64) :
    ArrayDeserializer.new path strategy (.timestamp unit tz values validity) =
      match is_utc_timestamp tz with
      | .error e => .error e
      | .ok utc => .ok (.date64 unit utc) := by
  rcases hstrat with rfl | rfl | rfl <;> simp only [ArrayDeserializer.new]

/-- C8: constructing an `ArrayDeserializer` over a Timestamp view, for every
strategy under which construction proceeds: a timezone of `None` is accepted
as non-UTC, a timezone whose lowercased form is `"utc"` is accepted as UTC,
and every other timezone string fails with an "Unsupported timezone" error;
correspondingly for `is_utc_timestamp` itself. -/
theorem timestamp_timezone_spec (path : String) (strategy : Option Strategy)
    (unit : TimeUnit) (tz : Option String) (values : List Int)
    (validity : Option BitsWithOffset)
    (hstrat : strategy = none ∨ strategy = some .naiveStrAsDate64 ∨
      strategy = some .utcStrAsDate64) :
    (tz = none →
      ArrayDeserializer.new path strategy (.timestamp unit tz values validity) =
        .ok (.date64 unit false))
    ∧ (∀ s, tz = some s → rust_to_lowercase s = "utc" →
      ArrayDeserializer.new path strategy (.timestamp unit tz values validity) =
        .ok (.date64 unit true))
    ∧ (∀ s, tz = some s → rust_to_lowercase s ≠ "utc" →
      ∃ e, ArrayDeserializer.new path strategy (.timestamp unit tz values validity) =
        .error e ∧ StrContains e "Unsupported timezone")
    ∧ is_utc_timestamp none = .ok false
    ∧ (∀ s, rust_to_lowercase s = "utc" → is_utc_timestamp (some s) = .ok true) := by
  have heq := new_timestamp_eq path strategy unit tz values validity hstrat
  refine ⟨?_, ?_, ?_, rfl, ?_⟩
  · intro htz
    subst htz
    rw [heq]
    rfl
  · intro s hs hlow
    subst hs
    rw [heq]
    simp [is_utc_timestamp, hlow]
  · intro s hs hlow
    subst hs
    rw [heq]
    refine ⟨"Unsupported timezone" ++ (": " ++ s ++ " is not supported"), ?_,
      strContains_append _ _⟩
    simp [is_utc_timestamp, hlow]
  · intro s hlow
    simp [is_utc_timestamp, hlow]

/-- Witness for C8: a timestamp view with timezone `"PST"` and no strategy;
construction fails with the "Unsupported timezone" error. -/
theorem timestamp_timezone_spec_witness :
    ((some "PST" : Option String) = none →
      ArrayDeserializer.new "$" none (.timestamp .second (some "PST") [] none) =
        .ok (.date64 .second false))
    ∧ (∀ s, (some "PST" : Option String) = some s → rust_to_lowercase s = "utc" →
      ArrayDeserializer.new "$" none (.timestamp .second (some "PST") [] none) =
        .ok (.date64 .second true))
    ∧ (∀ s, (some "PST" : Option String) = some s → rust_to_lowercase s ≠ "utc" →
      ∃ e, ArrayDeserializer.new "$" none (.timestamp .second (some "PST") [] none) =
        .error e ∧ StrContains e "Unsupported timezone")
    ∧ is_utc_timestamp none = .ok false
    ∧ (∀ s, rust_to_lowercase s = "utc" → is_utc_timestamp (some s) = .ok true) :=
  timestamp_timezone_spec "$" none .second (some "PST") [] none (Or.inl rfl)

/-- A successful run of the dense-union field loop forces each type id to
equal its (index-offset) position. -/
theorem newUnionFields_ok_ids (path : String)
    (fields : List (Int × ArrayView × FieldMeta)) (idx : Nat)
    (fs : List (String × ArrayDeserializer))
    (h : ArrayDeserializer.newUnionFields path idx fields = .ok fs) :
    ∀ k, (hk : k < fields.length) →
      (fields.get ⟨k, hk⟩).1 = ((idx + k : Nat) : Int) := by
  induction fields generalizing idx fs with
  | nil => intro k hk; simp at hk
  | cons f rest ih =>
    obtain ⟨t, fv, fm⟩ := f
    rw [ArrayDeserializer.newUnionFields] at h
    by_cases ht : t ≠ (idx : Int)
    · rw [if_pos ht] at h
      exact Except.noConfusion h
    · rw [if_neg ht] at h
      push_neg at ht
      match hgs : get_strategy fm with
      | .error e => simp only [hgs] at h; exact Except.noConfusion h
      | .ok st =>
        simp only [hgs] at h
        match hnew : ArrayDeserializer.new (childPath path fm.name) st fv with
        | .error e => simp only [hnew] at h; exact Except.noConfusion h
        | .ok d =>
          simp only [hnew] at h
          match hrec : ArrayDeserializer.newUnionFields path (idx + 1) rest with
          | .error e => simp only [hrec] at h; exact Except.noConfusion h
          | .ok ds =>
            intro k hk
            match k with
            | 0 => simpa using ht
            | k + 1 =>
              have hres := ih (idx + 1) ds hrec k (by simpa using hk)
              simp only [List.get_cons_succ] at hres ⊢
              rw [hres]
              push_cast
              ring

/-- If position `j` carries a wrong type id and the loop succeeds on the
prefix before `j`, the whole loop fails with the consecutive-type-ids
error. -/
theorem newUnionFields_violation (path : String)
    (fields : List (Int × ArrayView × FieldMeta)) (idx j : Nat)
    (hj : j < fields.length)
    (hbad : (fields.get ⟨j, hj⟩).1 ≠ ((idx + j : Nat) : Int))
    (hpre : isOk (ArrayDeserializer.newUnionFields path idx (fields.take j)) = true) :
    ArrayDeserializer.newUnionFields path idx fields =
      .error "Only unions with consecutive type ids are currently supported" := by
  induction j generalizing fields idx with
  | zero =>
    match fields, hj with
    | (t, fv, fm) :: rest, _ =>
      rw [ArrayDeserializer.newUnionFields]
      rw [if_pos (by simpa using hbad)]
  | succ j ih =>
    match fields, hj with
    | (t, fv, fm) :: rest, hj =>
      rw [List.take_succ_cons] at hpre
      rw [ArrayDeserializer.newUnionFields] at hpre ⊢
      by_cases ht : t ≠ (idx : Int)
      · rw [if_pos ht] at hpre
        simp [isOk] at hpre
      · rw [if_neg ht] at hpre ⊢
        match hgs : get_strategy fm with
        | .error e =>
          simp only [hgs] at hpre
          simp [isOk] at hpre
        | .ok st =>
          simp only [hgs] at hpre ⊢
          match hnew : ArrayDeserializer.new (childPath path fm.name) st fv with
          | .error e =>
            simp only [hnew] at hpre
            simp [isOk] at hpre
          | .ok d =>
            simp only [hnew] at hpre ⊢
            match hx : ArrayDeserializer.newUnionFields path (idx + 1) (rest.take j) with
            | .error e =>
              simp only [hx] at hpre
              simp [isOk] at hpre
            | .ok ds =>
              have hbad2 : (rest.get ⟨j, by simpa using hj⟩).1 ≠ (((idx + 1) + j : Nat) : Int) := by
                intro hcontra
                apply hbad
                simp only [List.get_cons_succ]
                rw [hcontra]
                push_cast
                ring
              have hrec := ih rest (idx + 1) (by simpa using hj) hbad2 (by rw [hx]; rfl)
              rw [hrec]

/-- C7 (amended): `ArrayDeserializer::new` over a DenseUnion view succeeds
only if every field's type id equals its index (consecutive ids starting at
0); every violating view fails, and when all fields before the first
violating index construct successfully the error contains "Only unions with
consecutive type ids are currently supported".  (A violating view whose
earlier fields themselves fail to construct reports that earlier error
instead, see the counterexample.) -/
theorem denseUnion_consecutive_ids (path : String) (strategy : Option Strategy)
    (types offsets : List Int) (fields : List (Int × ArrayView × FieldMeta)) :
    (isOk (ArrayDeserializer.new path strategy (.denseUnion types offsets fields)) = true →
      ∀ k, (hk : k < fields.length) → (fields.get ⟨k, hk⟩).1 = (k : Int))
    ∧ (∀ j, (hj : j < fields.length) →
        (fields.get ⟨j, hj⟩).1 ≠ (j : Int) →
        isOk (ArrayDeserializer.newUnionFields path 0 (fields.take j)) = true →
        ∃ e, ArrayDeserializer.new path strategy (.denseUnion types offsets fields) =
          .error e ∧
          StrContains e "Only unions with consecutive type ids are currently supported") := by
  constructor
  · intro hOk k hk
    rw [ArrayDeserializer.new] at hOk
    match hm : ArrayDeserializer.newUnionFields path 0 fields with
    | .error e =>
      rw [hm] at hOk
      simp [isOk] at hOk
    | .ok fs =>
      have := newUnionFields_ok_ids path fields 0 fs hm k hk
      simpa using this
  · intro j hj hbad hpre
    have hviol := newUnionFields_violation path fields 0 j hj (by simpa using hbad) hpre
    rw [ArrayDeserializer.new, hviol]
    exact ⟨_, rfl, strContains_refl _⟩



/-- Witness for C7: a single-field union whose type id is 3 (not 0); the
empty prefix constructs trivially and the deserializer constructor fails
with the consecutive-type-ids error. -/
theorem denseUnion_consecutive_ids_witness :
    ∃ e, ArrayDeserializer.new "$" none (.denseUnion [] []
        [((3 : Int), .null 0, ⟨"child", false, []⟩)]) = .error e ∧
      StrContains e "Only unions with consecutive type ids are currently supported" :=
  (denseUnion_consecutive_ids "$" none [] []
      [((3 : Int), .null 0, ⟨"child", false, []⟩)]).2 0 (by norm_num)
    (by norm_num) (by simp [ArrayDeserializer.newUnionFields, isOk])

/-- Counterexample for C7 as stated: this union view violates the
consecutive-type-ids requirement (the second field has id 5), yet the
construction error is the timezone error of its first field, which does not
contain the "Only unions ..." message. -/
theorem denseUnion_error_message_cex :
    ArrayDeserializer.new "$" none (.denseUnion [] []
        [((0 : Int), .timestamp .second (some "pst") [] none, ⟨"child", false, []⟩),
         ((5 : Int), .null 0, ⟨"child", false, []⟩)]) =
      .error "Unsupported timezone: pst is not supported"
    ∧ ¬ StrContains "Unsupported timezone: pst is not supported"
        "Only unions with consecutive type ids are currently supported"
    ∧ (([((0 : Int), ArrayView.timestamp .second (some "pst") [] none,
          (⟨"child", false, []⟩ : FieldMeta)),
         ((5 : Int), ArrayView.null 0, (⟨"child", false, []⟩ : FieldMeta))]).get
        ⟨1, by norm_num⟩).1 ≠ (1 : Int) := by
  refine ⟨?_, by decide, by decide⟩
  have hne : rust_to_lowercase "pst" ≠ "utc" := by decide
  have h1 : ArrayDeserializer.new (childPath "$" "child") none
      (.timestamp .second (some "pst") [] none) =
      .error "Unsupported timezone: pst is not supported" := by
    rw [new_timestamp_eq (childPath "$" "child") none .second (some "pst") [] none
      (Or.inl rfl)]
    simp only [is_utc_timestamp]
    rw [if_neg hne]
    rfl
  simp only [ArrayDeserializer.new, ArrayDeserializer.newUnionFields]
  rw [if_neg (by norm_num)]
  have hgs : get_strategy ⟨"child", false, []⟩ = .ok none := rfl
  simp only [hgs, h1]



/-! ## `internal/schema/from_samples/mod.rs`: the tracer serializer

The `Tracer` state machine itself lives in `internal/schema/tracer.rs`,
which is not part of the provided sources; it is modelled here from §4.1 of
the spec over the data types the claim exercises.  The `TracerSerializer`
dispatch (`serialize_some`, `serialize_none`, `serialize_i32`, ...) is
translated from `from_samples/mod.rs`. -/

/-- Modelled from the spec (§3): the subset of `DataType` needed for the
claim's samples and the numeric-promotion rules among them. -/
inductive TracerDataType where
  | null
  | boolean
  | int32
  | int64
  | float64
deriving DecidableEq, Repr

/-- Modelled from the spec (§4.1): a tracer node — `Unknown` before any
observation, or a primitive leaf — with its nullable bit. -/
inductive Tracer where
  | unknown (nullable : Bool)
  | primitive (dt : TracerDataType) (nullable : Bool)
deriving DecidableEq, Repr

/-- Modelled from the spec (§4.4 `from_samples`): `None` "flips a nullable
bit without changing type". -/
def mark_nullable : Tracer → Tracer
  | .unknown _ => .unknown true
  | .primitive dt _ => .primitive dt true

/-- Modelled from the spec (§4.1 convergence rules): combine the current
primitive type with a numeric observation — identical types keep the type,
`Null` on either side adopts the other and marks nullable, integers widen
within the same signedness, integer/float widens to the float, anything
else is a conflict. -/
def ensure_number (t : Tracer) (dt : TracerDataType) : Except String Tracer :=
  match t with
  | .unknown nullable => .ok (.primitive dt nullable)
  | .primitive cur nullable =>
    if cur = dt then .ok (.primitive cur nullable)
    else if cur = .null then .ok (.primitive dt true)
    else if dt = .null then .ok (.primitive cur true)
    else
      match cur, dt with
      | .int32, .int64 | .int64, .int32 => .ok (.primitive .int64 nullable)
      | .int32, .float64 | .float64, .int32 => .ok (.primitive .float64 nullable)
      | .int64, .float64 | .float64, .int64 => .ok (.primitive .float64 nullable)
      | _, _ => .error "Conflict: cannot merge incompatible primitive types"

/-- Modelled from the spec (§4.1): combine with a non-numeric primitive
observation — identical keeps, `Null` merges and marks nullable, mismatch
is a conflict. -/
def ensure_primitive (t : Tracer) (dt : TracerDataType) : Except String Tracer :=
  match t with
  | .unknown nullable => .ok (.primitive dt nullable)
  | .primitive cur nullable =>
    if cur = dt then .ok (.primitive cur nullable)
    else if cur = .null then .ok (.primitive dt true)
    else if dt = .null then .ok (.primitive cur true)
    else .error "Conflict: cannot merge incompatible primitive types"

/-- A sample value, restricted to the shapes the claim exercises. -/
inductive SampleValue where
  | i32 (v : Int)
  | i64 (v : Int)
  | boolean (b : Bool)
  | none
  | some (v : SampleValue)
deriving DecidableEq, Repr

/-- Source: `from_samples/mod.rs`, the `TracerSerializer` dispatch:
`serialize_i32`/`serialize_i64` call `ensure_number`, `serialize_bool`
calls `ensure_primitive`, `serialize_none` calls `mark_nullable` and
returns, and `serialize_some` calls `mark_nullable` *before* serializing
the wrapped value. -/
def serialize_value : SampleValue → Tracer → Except String Tracer
  | .i32 _, t => ensure_number t .int32
  | .i64 _, t => ensure_number t .int64
  | .boolean _, t => ensure_primitive t .boolean
  | .none, t => .ok (mark_nullable t)
  | .some v, t => serialize_value v (mark_nullable t)

/-- Source: `from_samples/mod.rs`, `OuterSequenceSerializer`: the samples
root serializes as a sequence and each element drives `TracerSerializer`
over the root tracer. -/
def trace_samples : List SampleValue → Tracer → Except String Tracer
  | [], t => .ok t
  | v :: rest, t =>
    match serialize_value v t with
    | .error e => .error e
    | .ok t2 => trace_samples rest t2

/-- The root field emitted by `Tracer::to_field` (spec §4.4). -/
structure TracedField where
  name : String
  dt : TracerDataType
  nullable : Bool
deriving DecidableEq, Repr

/-- Modelled from the spec (§4.4): `finish` + `to_field` under default
options (`allow_null_fields = false`): a still-`Unknown` tracer fails, a
primitive tracer becomes the root field named `"$"`. -/
def tracer_to_field : Tracer → Except String TracedField
  | .unknown _ => .error "Unknown column type for field"
  | .primitive dt nullable => .ok ⟨"$", dt, nullable⟩

/-- Source: `Tracer::from_samples` (composed with `to_field`): trace every
sample over a fresh root tracer, then finish. -/
def from_samples (samples : List SampleValue) : Except String TracedField :=
  match trace_samples samples (.unknown false) with
  | .error e => .error e
  | .ok t => tracer_to_field t

/-- C10: in `from_samples` tracing, observing `Some(x)` marks the tracer
nullable before tracing `x`, exactly as observing `None` does;
consequently the single all-present sample list `[Some(42_i32)]` is
inferred as `I32` with `nullable = true`, the same field as for
`[None, Some(42_i32)]` (the source's `example_i32_nullable_some` test). -/
theorem tracer_some_marks_nullable :
    (∀ t v, serialize_value (.some v) t = serialize_value v (mark_nullable t))
    ∧ (∀ t, serialize_value .none t = .ok (mark_nullable t))
    ∧ from_samples [.some (.i32 42)] = .ok ⟨"$", .int32, true⟩
    ∧ from_samples [.none, .some (.i32 42)] = .ok ⟨"$", .int32, true⟩ :=
  ⟨fun _ _ => rfl, fun _ => rfl, rfl, rfl⟩


end SerdeArrow
